import Mathlib

/-!
Verification of the PushProx client agent (`cmd/client/main.go`).

The agent polls a relay for pending scrape requests, executes them against the
local target under a deadline, and pushes the serialized result back to the
relay.  The definitions below are a shallow embedding of that code: the HTTP
clients are abstracted as oracle functions in an `Env`, durations and instants
are integer nanoseconds (the time origin is Go's zero `time.Time`, so `0`
denotes the zero time and "now" is a large positive instant), and each run of
`doScrape` produces a `ScrapeLog` recording the requests issued on the
target-facing transport, the pushes issued towards the relay, and the error
counters incremented.
-/

namespace PushProx

/-- Which `*http.Client` a call is issued on: the relay-facing proxy client or
the target-facing scrape client. -/
inductive ClientKind where
  | proxy
  | scrapeTarget
deriving DecidableEq, Repr

/-- `strings.Split` / `net/url` splitting, on explicit character lists:
splits a character list at every occurrence of `sep`.  Mirrors Go's
`strings.Split(s, sep)` for a one-character separator (an empty input yields
one empty group, as Go yields `[""]`). -/
def splitChars : List Char → Char → List (List Char)
  | [], _ => [[]]
  | c :: cs, sep =>
    match splitChars cs sep with
    | [] => [[c]]
    | g :: gs => if c = sep then [] :: g :: gs else (c :: g) :: gs

/-- Go's `strings.Split(s, sep)` for a single-character separator. -/
def goSplit (s : String) (sep : Char) : List String :=
  (splitChars s.data sep).map String.mk

/-- `net/url.URL.Hostname()` on the `Host` field, character-list form: strips
a trailing `:port` whose port part is all digits (possibly empty), then strips
surrounding IPv6 brackets. -/
def hostnameChars (cs : List Char) : List Char :=
  let stripped :=
    if cs.contains ':' then
      let afterRev := cs.reverse.takeWhile (fun c => !(c == ':'))
      if afterRev.all Char.isDigit then (cs.reverse.drop (afterRev.length + 1)).reverse
      else cs
    else cs
  match stripped with
  | '[' :: rest => if rest.getLast? = some ']' then rest.dropLast else stripped
  | _ => stripped

/-- `request.URL.Hostname()`: the host with any port and IPv6 brackets removed. -/
def hostname (host : String) : String :=
  String.mk (hostnameChars host.data)

/-- A URL as the client manipulates it: scheme, host (with optional port),
path, and the query represented structurally as a key/value list (Go's
`url.Values` in order of appearance). -/
structure URLm where
  scheme : String
  host : String
  path : String
  query : List (String × String)
deriving DecidableEq, Repr

/-- `http.Header.Get` / `url.Values.Get`: first value for the key, or `""`. -/
def headerGet (h : List (String × String)) (k : String) : String :=
  match h.lookup k with
  | some v => v
  | none => ""

/-- `http.Header.Set`: replace every value of `k` by the single value `v`. -/
def headerSet (h : List (String × String)) (k v : String) : List (String × String) :=
  (k, v) :: h.filter (fun p => !(p.1 == k))

/-- `url.Values.Del`: remove every value of the key. -/
def queryDel (q : List (String × String)) (k : String) : List (String × String) :=
  q.filter (fun p => !(p.1 == k))

/-- The RequestDescriptor received from the relay: method, target URL, header
set, and the context deadline (absent until `context.WithTimeout` is applied;
an instant in nanoseconds from Go's zero time otherwise). -/
structure Request where
  method : String
  url : URLm
  header : List (String × String)
  ctxDeadline : Option Int
deriving DecidableEq, Repr

/-- An HTTP response: status code, header set, body bytes. -/
structure Response where
  status : Nat
  header : List (String × String)
  body : String
deriving DecidableEq, Repr

/-- The POST issued towards the relay's push endpoint by `doPush`. -/
structure PostRequest where
  method : String
  url : String
  body : String
  contentLength : Nat
  ctxDeadline : Option Int
deriving DecidableEq, Repr

/-- One push towards the relay: which client carried the POST, the response
after `doPush`'s header mutations, the originating request as `doPush` saw it,
the POST itself, the remaining-time-to-deadline in nanoseconds that was
formatted into the `X-Prometheus-Scrape-Timeout` header, and whether the POST
succeeded. -/
structure PushRecord where
  client : ClientKind
  resp : Response
  req : Request
  post : PostRequest
  remainingNanos : Int
  ok : Bool
deriving Repr

/-- Everything one run of `doScrape` did: requests issued on the target-facing
transport, pushes issued, counter increments, and whether the run panicked. -/
structure ScrapeLog where
  targetRequests : List Request
  pushRecords : List PushRecord
  scrapeErrorInc : Nat
  pushErrorInc : Nat
  panicked : Bool
deriving Repr

/-- The agent's configuration and the behaviour of the outside world: the
configured FQDN (`--fqdn`), relay URL (`--proxy-url`), local-scrape toggle
(`--local-scrape`), the current instant, the target-facing transport's
behaviour (`scrapeTargetClient.Do`), and whether a given push POST succeeds
(`proxyClient.Do` on the push endpoint — or `scrapeTargetClient.Do`, for the
push issued after a failed scrape). -/
structure Env where
  myFqdn : String
  proxyURL : String
  localScrape : String
  now : Int
  scrapeDo : Request → Except String Response
  pushDo : ClientKind → PostRequest → Bool

/-- Left-pads a digit string with zeros to the given width. -/
def padLeftZeros (n : Nat) (s : String) : String :=
  if s.length ≥ n then s else String.mk (List.replicate (n - s.length) '0') ++ s

/-- `fmt.Sprintf("%f", float64(nanos)/1e9)`: the remaining duration rendered
as seconds with six decimal places (rounding to the nearest microsecond). -/
def fmtTimeoutSeconds (nanos : Int) : String :=
  let sign := if nanos < 0 then "-" else ""
  let micros := (nanos.natAbs + 500) / 1000
  sign ++ toString (micros / 1000000) ++ "." ++ padLeftZeros 6 (toString (micros % 1000000))

/-- Parses a non-empty all-digit character list as a natural number. -/
def parseNatDigits (cs : List Char) : Option Nat :=
  if cs ≠ [] ∧ cs.all Char.isDigit then
    some (cs.foldl (fun a c => a * 10 + (c.toNat - 48)) 0)
  else none

/-- The first nine fractional digits scaled to nanoseconds. -/
def fracNanos (cs : List Char) : Nat :=
  let ds := cs.take 9
  (ds.foldl (fun a c => a * 10 + (c.toNat - 48)) 0) * 10 ^ (9 - ds.length)

/-- Parses a decimal seconds value (`"5"`, `"2.5"`) into nanoseconds; any
other shape is a parse error. -/
def parseSecondsNanos (s : String) : Except String Int :=
  match splitChars s.data '.' with
  | [w] =>
    match parseNatDigits w with
    | some n => .ok ((n : Int) * 1000000000)
    | none => .error ("invalid duration " ++ s)
  | [w, f] =>
    match parseNatDigits w, parseNatDigits f with
    | some n, some _ => .ok ((n : Int) * 1000000000 + (fracNanos f : Int))
    | _, _ => .error ("invalid duration " ++ s)
  | _ => .error ("invalid duration " ++ s)

/-- The header carrying the scrape deadline on the polled request. -/
def deadlineHeader : String := "X-Prometheus-Scrape-Timeout-Seconds"

/-- Modelled from the spec: `util.GetHeaderTimeout` (package `util` of this
repository, which is not under `src/` — only its caller in
`cmd/client/main.go` is).  Per the spec, the Deadline "is derived from a
header on the RequestDescriptor" and "malformed values are an error, not
silently defaulted": the deadline header is read and parsed as seconds, and a
parse failure is returned as an error rather than a default timeout. -/
def getHeaderTimeout (h : List (String × String)) : Except String Int :=
  parseSecondsNanos (headerGet h deadlineHeader)

/-- `base.ResolveReference("push")`: the last path segment of the relay URL is
replaced by `push` (`main` guarantees the configured relay URL ends in `/`, so
this appends `push`). -/
def pushEndpoint (proxyURL : String) : String :=
  String.mk (proxyURL.data.reverse.dropWhile (fun c => !(c == '/'))).reverse ++ "push"

/-- `resp.Write(buf)`: the response serialized as raw bytes — status line,
headers, blank line, body. -/
def writeResponse (r : Response) : String :=
  "HTTP/1.1 " ++ toString r.status ++ "\r\n"
    ++ r.header.foldr (fun p acc => p.1 ++ ": " ++ p.2 ++ "\r\n" ++ acc) ""
    ++ "\r\n" ++ r.body

/-- `Coordinator.doPush`: set the response's `id` header to the originating
request's `id` header, set `X-Prometheus-Scrape-Timeout` to the seconds until
the originating request's context deadline (the zero time when the context has
no deadline, exactly as `origRequest.Context().Deadline()` returns it), and
POST the serialized response to the relay's push endpoint under the
originating request's context. -/
def doPush (env : Env) (client : ClientKind) (resp : Response) (origRequest : Request) :
    PushRecord :=
  let resp1 : Response :=
    { resp with header := headerSet resp.header "id" (headerGet origRequest.header "id") }
  let deadline : Int := origRequest.ctxDeadline.getD 0
  let remaining : Int := deadline - env.now
  let resp2 : Response :=
    { resp1 with
      header := headerSet resp1.header "X-Prometheus-Scrape-Timeout" (fmtTimeoutSeconds remaining) }
  let body := writeResponse resp2
  let post : PostRequest :=
    { method := "POST"
      url := pushEndpoint env.proxyURL
      body := body
      contentLength := body.length
      ctxDeadline := origRequest.ctxDeadline }
  { client := client
    resp := resp2
    req := origRequest
    post := post
    remainingNanos := remaining
    ok := env.pushDo client post }

/-- `Coordinator.handleErr`: count a scrape error, synthesize a 500 response
whose body is the error text, and push it via the given client; a failed push
counts one push error. -/
def handleErr (env : Env) (client : ClientKind) (request : Request) (errText : String) :
    ScrapeLog :=
  let resp : Response := { status := 500, header := [], body := errText }
  let pr := doPush env client resp request
  { targetRequests := []
    pushRecords := [pr]
    scrapeErrorInc := 1
    pushErrorInc := if pr.ok then 0 else 1
    panicked := false }

/-- The `_scheme=https` query-parameter rewrite in `doScrape`: if the query's
`_scheme` parameter is `https`, set the scheme to `https` and delete the
parameter. -/
def schemeRewrite (u : URLm) : URLm :=
  if headerGet u.query "_scheme" = "https" then
    { u with scheme := "https", query := queryDel u.query "_scheme" }
  else u

/-- `request.URL.String()`, as used in the `failed to scrape %s` message. -/
def urlString (u : URLm) : String :=
  u.scheme ++ "://" ++ u.host ++ u.path
    ++ (if u.query.isEmpty then "" else
        "?" ++ String.intercalate "&" (u.query.map (fun p => p.1 ++ "=" ++ p.2)))

/-- The tail of `doScrape` from `scrapeTargetClient.Do(request)` on:
issue the (possibly host-rewritten) request on the target transport; on error,
push a synthesized failure via the scrape-target client (the client
`handleErr` receives on this path); on success, restore the original host when
local-scrape mode is on, then push the real response via the proxy client. -/
def runTarget (env : Env) (dispatched : Request) (originalHost : String) : ScrapeLog :=
  match env.scrapeDo dispatched with
  | .error e =>
    let msg := "failed to scrape " ++ urlString dispatched.url ++ ": " ++ e
    let lg := handleErr env .scrapeTarget dispatched msg
    { lg with targetRequests := [dispatched] }
  | .ok scrapeResp =>
    let restored : Request :=
      if env.localScrape = "" then dispatched
      else { dispatched with url := { dispatched.url with host := originalHost } }
    let pr := doPush env .proxy scrapeResp restored
    { targetRequests := [dispatched]
      pushRecords := [pr]
      scrapeErrorInc := 0
      pushErrorInc := if pr.ok then 0 else 1
      panicked := false }

/-- The log of a run that died in a runtime panic before reaching the target
or the relay. -/
def panicLog : ScrapeLog :=
  { targetRequests := []
    pushRecords := []
    scrapeErrorInc := 0
    pushErrorInc := 0
    panicked := true }

/-- `context.WithTimeout(request.Context(), timeout)`: the new context
deadline is `now + timeout`, capped by any deadline the context already
carries. -/
def withTimeout (now : Int) (ctxDeadline : Option Int) (timeout : Int) : Int :=
  match ctxDeadline with
  | none => now + timeout
  | some d => min d (now + timeout)

/-- The part of `Coordinator.doScrape` after the deadline header parsed:
attach the timeout context; apply the `_scheme` rewrite; validate the hostname
against the configured FQDN (mismatch pushes a synthesized failure and
stops); in local-scrape mode rewrite the host to `localhost` keeping
`strings.Split(host, ":")[1]` — an out-of-bounds index, hence a runtime
panic, when the host has no colon; then run the target call and push. -/
def doScrapeValidated (env : Env) (request : Request) (timeout : Int) : ScrapeLog :=
  let request1 : Request :=
    { request with ctxDeadline := some (withTimeout env.now request.ctxDeadline timeout) }
  let request2 : Request := { request1 with url := schemeRewrite request1.url }
  if hostname request2.url.host ≠ env.myFqdn then
    handleErr env .proxy request2 "scrape target doesn't match proxy client fqdn"
  else
    let originalHost := request2.url.host
    if env.localScrape = "" then
      runTarget env request2 originalHost
    else
      match (goSplit originalHost ':').get? 1 with
      | none => panicLog
      | some portNumber =>
        runTarget env
          { request2 with url := { request2.url with host := "localhost:" ++ portNumber } }
          originalHost

/-- `Coordinator.doScrape`: parse the deadline header; a parse failure pushes
a synthesized failure via `handleErr` without attempting the target call;
otherwise continue with the timeout attached. -/
def doScrape (env : Env) (request : Request) : ScrapeLog :=
  match getHeaderTimeout request.header with
  | .error e => handleErr env .proxy request e
  | .ok timeout => doScrapeValidated env request timeout

/-- A poll attempt's outcome as the Coordinator loop sees it: a poll error, or
a successfully decoded RequestDescriptor handed to a spawned scrape task. -/
inductive PollResult where
  | failure (err : String)
  | success (req : Request)

/-- What the Coordinator loop did over a sequence of poll outcomes: poll-error
counter increments and the logs of the scrape tasks it spawned. -/
structure LoopLog where
  pollErrorInc : Nat
  scrapeLogs : List ScrapeLog
deriving Repr

/-- `Coordinator.loop` over a finite prefix of poll outcomes: every poll
failure increments the poll-error counter (the `RetryNotify` callback) and the
loop continues; every success spawns a `doScrape` task whose outcome the loop
never examines. -/
def loopRun (env : Env) : List PollResult → LoopLog
  | [] => { pollErrorInc := 0, scrapeLogs := [] }
  | PollResult.failure _ :: ps =>
    let rest := loopRun env ps
    { rest with pollErrorInc := rest.pollErrorInc + 1 }
  | PollResult.success req :: ps =>
    let rest := loopRun env ps
    { rest with scrapeLogs := doScrape env req :: rest.scrapeLogs }

/-! ### Backoff policy

`newBackOffFromFlags` configures a `backoff.ExponentialBackOff` with the two
retry flags, multiplier 1.5 and no elapsed-time limit.  The generator itself
lives in the `cenkalti/backoff` dependency, outside `src/`; `nextInterval`,
`backoffReset` and `backoffStops` are modelled from the spec's contract
(§4.1). -/

/-- The retry-interval generator's state: floor (initial wait), ceiling
(max wait), elapsed-time budget (0 meaning unlimited) and the current
interval.  Intervals are nanoseconds. -/
structure ExponentialBackOff where
  initialInterval : Nat
  maxInterval : Nat
  maxElapsedTime : Nat
  currentInterval : Nat
deriving DecidableEq, Repr

/-- `newBackOffFromFlags`: initial wait and max wait from the two retry
flags, multiplier fixed at 1.5, `MaxElapsedTime` zero (no overall limit).
The current interval starts at the initial wait (the retry helper resets the
policy before its first use). -/
def newBackOffFromFlags (retryInitialWait retryMaxWait : Nat) : ExponentialBackOff :=
  { initialInterval := retryInitialWait
    maxInterval := retryMaxWait
    maxElapsedTime := 0
    currentInterval := retryInitialWait }

/-- Modelled from the spec: the backoff generator's `next()` (implemented in
the `cenkalti/backoff` dependency, outside `src/`).  "Consecutive calls within
one failing run grow the interval by a fixed multiplier (1.5×) starting from a
configured initial wait, clamped to a configured maximum wait": return the
current interval, then grow it by 3/2 clamped to the ceiling. -/
def nextInterval (b : ExponentialBackOff) : Nat × ExponentialBackOff :=
  (b.currentInterval, { b with currentInterval := min (3 * b.currentInterval / 2) b.maxInterval })

/-- Modelled from the spec: "a successful operation discards the current
run's state; the next failure starts a new run from the initial wait". -/
def backoffReset (b : ExponentialBackOff) : ExponentialBackOff :=
  { b with currentInterval := b.initialInterval }

/-- Modelled from the spec: the policy gives up only when a non-zero
elapsed-time budget is exceeded; with `MaxElapsedTime = 0` "an operation may
be retried indefinitely". -/
def backoffStops (b : ExponentialBackOff) (elapsed : Nat) : Bool :=
  decide (b.maxElapsedTime ≠ 0) && decide (elapsed > b.maxElapsedTime)

/-- The backoff state after `n` calls of `next()` within one failing run. -/
def backoffIter (b : ExponentialBackOff) : Nat → ExponentialBackOff
  | 0 => b
  | n + 1 => (nextInterval (backoffIter b n)).2

/-- The `n`-th interval returned within one failing run. -/
def intervalAt (b : ExponentialBackOff) (n : Nat) : Nat :=
  (nextInterval (backoffIter b n)).1

/-! ### CONNECT tunnel dialer -/

/-- The network's behaviour during one invocation of the CONNECT dialer:
the result of `net.Dial("tcp", connectAddress)` (a connection identity or an
error), the result of `http.ReadResponse` on that connection (a status code or
a read/parse error), how many bytes of the connection's incoming stream that
response occupied, and the incoming byte stream available after the CONNECT
request was written. -/
structure NetEnv where
  dial : Except String Nat
  resp : Except String Nat
  respLen : Nat
  input : List Nat

/-- A transport connection as handed back by the dialer: the underlying
socket's identity, the bytes written on it so far, and its unread incoming
byte stream. -/
structure Conn where
  id : Nat
  written : List String
  unread : List Nat
deriving DecidableEq, Repr

/-- The CONNECT request written on the freshly dialed socket:
`CONNECT addr HTTP/1.1\r\nHost: addr\r\n\r\n`. -/
def connectRequest (addr : String) : String :=
  "CONNECT " ++ addr ++ " HTTP/1.1\r\nHost: " ++ addr ++ "\r\n\r\n"

/-- The CONNECT closure installed as `DialContext` when `--connect-address`
is set: dial the upstream proxy, write the CONNECT handshake, read the proxy's
HTTP response; a dial failure, an unreadable response, or a status other than
200 is a dial error (no connection is returned); on 200 the established socket
is returned with exactly the response bytes consumed. -/
def connectDialer (net : NetEnv) (connectAddress addr : String) : Except String Conn :=
  match net.dial with
  | .error e => .error ("dialing proxy failed: " ++ connectAddress ++ " " ++ e)
  | .ok cid =>
    match net.resp with
    | .error e =>
      .error ("reading HTTP response from CONNECT to " ++ addr ++ " via proxy "
        ++ connectAddress ++ " failed " ++ e)
    | .ok status =>
      if status ≠ 200 then
        .error ("proxy error from " ++ connectAddress ++ " while dialing " ++ addr
          ++ ": " ++ toString status)
      else
        .ok { id := cid, written := [connectRequest addr], unread := net.input.drop net.respLen }

/-- Whether a dial produced a usable connection. -/
def dialOk (r : Except String Conn) : Bool :=
  match r with
  | .ok _ => true
  | .error _ => false

/-! ### Shared concrete fixtures -/

/-- A healthy target response. -/
def respUp : Response := { status := 200, header := [], body := "up 1" }

/-- A baseline agent configuration: identity `h1`, relay `http://relay/`,
local-scrape off, a target that answers `respUp`, pushes that succeed. -/
def envW : Env :=
  { myFqdn := "h1"
    proxyURL := "http://relay/"
    localScrape := ""
    now := 100
    scrapeDo := fun _ => .ok respUp
    pushDo := fun _ _ => true }

/-- A baseline polled request: `GET http://h1:9100/metrics`, id `abc123`,
deadline header `5` seconds. -/
def reqW : Request :=
  { method := "GET"
    url := { scheme := "http", host := "h1:9100", path := "/metrics", query := [] }
    header := [("id", "abc123"), (deadlineHeader, "5")]
    ctxDeadline := none }

/-- The baseline request aimed at a host that is not the agent's identity. -/
def reqMismatch : Request := { reqW with url := { reqW.url with host := "h2:9100" } }

/-- The baseline request with no (hence unparseable) deadline header. -/
def reqBadDeadline : Request := { reqW with header := [("id", "abc123")] }

/-- The baseline environment with local-scrape mode switched on. -/
def envLocalW : Env := { envW with localScrape := "on" }

/-- The baseline request with a portless host. -/
def reqNoPort : Request := { reqW with url := { reqW.url with host := "h1" } }

/-- The local-scrape environment whose target call fails. -/
def envLocalFail : Env := { envLocalW with scrapeDo := fun _ => .error "connection refused" }

/-- The baseline request carrying the `_scheme=https` override parameter. -/
def reqScheme : Request :=
  { reqW with url := { reqW.url with query := [("_scheme", "https")] } }

/-- A network in which the TCP dial to the upstream proxy fails. -/
def netDialFail : NetEnv :=
  { dial := .error "connection refused", resp := .ok 200, respLen := 0, input := [] }

/-- A network in which the upstream proxy answers the CONNECT with 403. -/
def netBadStatus : NetEnv :=
  { dial := .ok 7, resp := .ok 403, respLen := 0, input := [] }

/-- A network in which the CONNECT succeeds: the proxy's response occupies the
first two bytes of the stream, tunnel traffic follows. -/
def netOk : NetEnv :=
  { dial := .ok 7, resp := .ok 200, respLen := 2, input := [9, 9, 1, 2, 3] }

/-! ### Helper lemmas -/

theorem lookup_filter_ne (k k' : String) (hne : k' ≠ k) :
    ∀ h : List (String × String),
      (h.filter (fun p => !(p.1 == k))).lookup k' = h.lookup k' := by
  intro h
  induction h with
  | nil => rfl
  | cons a t ih =>
    by_cases hak : a.1 = k
    · have hk'a : (k' == a.1) = false := by
        simp [hak]
        exact hne
      have hkk : (k' == k) = false := by simpa using hne
      simp [List.filter_cons, hak, List.lookup, hk'a, hkk, ih]
    · by_cases hk'a : k' = a.1
      · simp [List.filter_cons, hak, List.lookup, hk'a]
      · simp [List.filter_cons, hak, List.lookup, hk'a, ih]

theorem headerGet_set_self (h : List (String × String)) (k v : String) :
    headerGet (headerSet h k v) k = v := by
  simp [headerGet, headerSet, List.lookup]

theorem headerGet_set_other (h : List (String × String)) (k v k' : String) (hne : k' ≠ k) :
    headerGet (headerSet h k v) k' = headerGet h k' := by
  simp only [headerGet, headerSet, List.lookup]
  have : (k' == k) = false := by simpa using hne
  rw [this]
  simp only [lookup_filter_ne k k' hne h]

theorem lookup_queryDel_self (k : String) :
    ∀ q : List (String × String), (queryDel q k).lookup k = none := by
  intro q
  induction q with
  | nil => rfl
  | cons a t ih =>
    by_cases hak : a.1 = k
    · simp [queryDel, List.filter_cons, hak] at ih ⊢
      exact ih
    · have : (k == a.1) = false := by
        simp
        exact fun hh => hak hh.symm
      simp [queryDel, List.filter_cons, hak, List.lookup, this] at ih ⊢
      exact ih

@[simp] theorem schemeRewrite_host (u : URLm) : (schemeRewrite u).host = u.host := by
  unfold schemeRewrite
  split <;> rfl

@[simp] theorem doPush_client (env : Env) (c : ClientKind) (resp : Response) (q : Request) :
    (doPush env c resp q).client = c := rfl

@[simp] theorem doPush_req (env : Env) (c : ClientKind) (resp : Response) (q : Request) :
    (doPush env c resp q).req = q := rfl

@[simp] theorem doPush_resp_status (env : Env) (c : ClientKind) (resp : Response) (q : Request) :
    (doPush env c resp q).resp.status = resp.status := rfl

@[simp] theorem doPush_resp_body (env : Env) (c : ClientKind) (resp : Response) (q : Request) :
    (doPush env c resp q).resp.body = resp.body := rfl

theorem doPush_id (env : Env) (c : ClientKind) (resp : Response) (q : Request) :
    headerGet (doPush env c resp q).resp.header "id" = headerGet q.header "id" := by
  show headerGet (headerSet (headerSet resp.header "id" (headerGet q.header "id"))
    "X-Prometheus-Scrape-Timeout" _) "id" = _
  rw [headerGet_set_other _ _ _ _ (by decide), headerGet_set_self]

theorem handleErr_spec (env : Env) (client : ClientKind) (req : Request) (errText : String) :
    (handleErr env client req errText).targetRequests = [] ∧
    (handleErr env client req errText).pushRecords
      = [doPush env client { status := 500, header := [], body := errText } req] := by
  exact ⟨rfl, rfl⟩

theorem doScrape_parseError (env : Env) (req : Request) (e : String)
    (hget : getHeaderTimeout req.header = .error e) :
    doScrape env req = handleErr env .proxy req e := by
  unfold doScrape
  rw [hget]

theorem doScrape_parseOk (env : Env) (req : Request) (t : Int)
    (hget : getHeaderTimeout req.header = .ok t) :
    doScrape env req = doScrapeValidated env req t := by
  unfold doScrape
  rw [hget]

theorem splitChars_no_sep (sep : Char) :
    ∀ cs : List Char, cs.contains sep = false → splitChars cs sep = [cs] := by
  intro cs
  induction cs with
  | nil => intro _; rfl
  | cons c t ih =>
    intro h
    simp only [List.contains_cons, Bool.or_eq_false_iff, beq_eq_false_iff_ne] at h
    unfold splitChars
    rw [ih (by simpa using h.2)]
    simp [Ne.symm h.1]

theorem goSplit_no_colon (s : String) (h : s.data.contains ':' = false) :
    goSplit s ':' = [s] := by
  unfold goSplit
  rw [splitChars_no_sep ':' s.data h]
  rfl

theorem runTarget_targetRequests (env : Env) (d : Request) (oh : String) :
    (runTarget env d oh).targetRequests = [d] := by
  unfold runTarget
  cases env.scrapeDo d <;> rfl

/-- Every `doScrape` run is a `handleErr` push (its request's headers those of
the polled request), a `runTarget` run (its dispatched request's headers those
of the polled request), or the panic log. -/
theorem doScrape_shape (env : Env) (req : Request) :
    (∃ q e, doScrape env req = handleErr env .proxy q e ∧ q.header = req.header)
    ∨ (∃ d oh, doScrape env req = runTarget env d oh ∧ d.header = req.header)
    ∨ doScrape env req = panicLog := by
  cases hget : getHeaderTimeout req.header with
  | error e => exact .inl ⟨req, e, doScrape_parseError env req e hget, rfl⟩
  | ok t =>
    rw [doScrape_parseOk env req t hget]
    unfold doScrapeValidated
    simp only [schemeRewrite_host]
    split
    · exact .inl ⟨_, _, rfl, rfl⟩
    · split
      · exact .inr (.inl ⟨_, _, rfl, rfl⟩)
      · split
        · exact .inr (.inr rfl)
        · exact .inr (.inl ⟨_, _, rfl, rfl⟩)

theorem handleErr_id_echo (env : Env) (c : ClientKind) (q : Request) (e : String) :
    ((handleErr env c q e).pushRecords.all
      (fun pr => headerGet pr.resp.header "id" == headerGet q.header "id")) = true := by
  simp [handleErr, doPush_id]

theorem runTarget_id_echo (env : Env) (d : Request) (oh : String) :
    ((runTarget env d oh).pushRecords.all
      (fun pr => headerGet pr.resp.header "id" == headerGet d.header "id")) = true := by
  unfold runTarget
  cases henv : env.scrapeDo d with
  | error e => simp [handleErr, doPush_id]
  | ok r =>
    have hh : (if env.localScrape = "" then d
        else { d with url := { d.url with host := oh } }).header = d.header := by
      split <;> rfl
    simp [doPush_id, hh]

theorem doScrape_id_echo (env : Env) (req : Request) :
    ((doScrape env req).pushRecords.all
      (fun pr => headerGet pr.resp.header "id" == headerGet req.header "id")) = true := by
  rcases doScrape_shape env req with ⟨q, e, heq, hh⟩ | ⟨d, oh, heq, hh⟩ | heq
  · rw [heq, ← hh]
    exact handleErr_id_echo env .proxy q e
  · rw [heq, ← hh]
    exact runTarget_id_echo env d oh
  · rw [heq]
    rfl

theorem ite_ok_filter_len (pr : PushRecord) :
    (if pr.ok then 0 else 1) = ([pr].filter (fun x => !x.ok)).length := by
  cases hok : pr.ok <;> simp [hok]

theorem handleErr_push_count (env : Env) (c : ClientKind) (q : Request) (e : String) :
    (handleErr env c q e).pushErrorInc
      = ((handleErr env c q e).pushRecords.filter (fun pr => !pr.ok)).length
    ∧ (handleErr env c q e).pushRecords.length ≤ 1 :=
  ⟨ite_ok_filter_len _, by simp [handleErr]⟩

theorem runTarget_push_count (env : Env) (d : Request) (oh : String) :
    (runTarget env d oh).pushErrorInc
      = ((runTarget env d oh).pushRecords.filter (fun pr => !pr.ok)).length
    ∧ (runTarget env d oh).pushRecords.length ≤ 1 := by
  unfold runTarget
  cases henv : env.scrapeDo d with
  | error e => exact ⟨ite_ok_filter_len _, by simp [handleErr]⟩
  | ok r => exact ⟨ite_ok_filter_len _, by simp⟩

theorem backoffIter_fields (b : ExponentialBackOff) :
    ∀ n, (backoffIter b n).initialInterval = b.initialInterval
      ∧ (backoffIter b n).maxInterval = b.maxInterval
      ∧ (backoffIter b n).maxElapsedTime = b.maxElapsedTime := by
  intro n
  induction n with
  | zero => exact ⟨rfl, rfl, rfl⟩
  | succ k ih => exact ⟨ih.1, ih.2.1, ih.2.2⟩

theorem le_three_halves (c : Nat) : c ≤ 3 * c / 2 := by omega

theorem backoffIter_current_le (b : ExponentialBackOff)
    (h : b.currentInterval ≤ b.maxInterval) :
    ∀ n, (backoffIter b n).currentInterval ≤ b.maxInterval := by
  intro n
  induction n with
  | zero => exact h
  | succ k ih =>
    have hstep : (backoffIter b (k + 1)).currentInterval
        = min (3 * (backoffIter b k).currentInterval / 2) (backoffIter b k).maxInterval := rfl
    rw [hstep, (backoffIter_fields b k).2.1]
    exact min_le_right _ _

theorem runTarget_restore (env : Env) (d : Request) (oh : String)
    (h3 : env.localScrape ≠ "") :
    (∀ r, env.scrapeDo d = .ok r →
      ∃ pr, (runTarget env d oh).pushRecords = [pr] ∧ pr.req.url.host = oh)
    ∧ (∀ e, env.scrapeDo d = .error e →
      ∃ pr, (runTarget env d oh).pushRecords = [pr] ∧ pr.req.url.host = d.url.host) := by
  constructor
  · intro r hr
    unfold runTarget
    rw [hr]
    refine ⟨_, rfl, ?_⟩
    show (if env.localScrape = "" then d
      else { d with url := { d.url with host := oh } }).url.host = oh
    rw [if_neg h3]
  · intro e he
    unfold runTarget
    rw [he]
    exact ⟨_, rfl, rfl⟩

theorem backoffReset_eq (b st : ExponentialBackOff)
    (h1 : st.initialInterval = b.initialInterval)
    (h2 : st.maxInterval = b.maxInterval)
    (h3 : st.maxElapsedTime = b.maxElapsedTime)
    (h4 : b.currentInterval = b.initialInterval) :
    backoffReset st = b := by
  cases st
  cases b
  simp_all [backoffReset]

/-! ### Claims -/

/-- **C1.** For every polled RequestDescriptor whose target URL hostname
differs from the agent's configured Identity (FQDN), `doScrape` issues no
request on the target-facing transport and instead pushes a synthesized
failure response with HTTP status 500 to the relay (via the proxy client). -/
theorem claim_c1 (env : Env) (req : Request)
    (h : hostname req.url.host ≠ env.myFqdn) :
    (doScrape env req).targetRequests = [] ∧
    ∃ pr, (doScrape env req).pushRecords = [pr] ∧
      pr.resp.status = 500 ∧ pr.client = ClientKind.proxy := by
  cases hget : getHeaderTimeout req.header with
  | error e =>
    rw [doScrape_parseError env req e hget]
    exact ⟨rfl, doPush env .proxy _ req, rfl, rfl, rfl⟩
  | ok t =>
    rw [doScrape_parseOk env req t hget]
    unfold doScrapeValidated
    simp only [schemeRewrite_host]
    rw [if_pos h]
    exact ⟨rfl, doPush env .proxy _ _, rfl, rfl, rfl⟩

theorem claim_c1_witness :
    (doScrape envW reqMismatch).targetRequests = [] ∧
    ∃ pr, (doScrape envW reqMismatch).pushRecords = [pr] ∧
      pr.resp.status = 500 ∧ pr.client = ClientKind.proxy :=
  claim_c1 envW reqMismatch (by decide)

/-- **C2.** For every polled RequestDescriptor whose deadline header fails to
parse, the scrape executor does not attempt the target call and pushes a
synthesized failure outcome (HTTP 500 carrying the parse error, not a silent
default timeout). -/
theorem claim_c2 (env : Env) (req : Request) (e : String)
    (h : getHeaderTimeout req.header = .error e) :
    (doScrape env req).targetRequests = [] ∧
    ∃ pr, (doScrape env req).pushRecords = [pr] ∧
      pr.resp.status = 500 ∧ pr.resp.body = e := by
  rw [doScrape_parseError env req e h]
  exact ⟨rfl, doPush env .proxy _ req, rfl, rfl, rfl⟩

theorem claim_c2_witness :
    (doScrape envW reqBadDeadline).targetRequests = [] ∧
    ∃ pr, (doScrape envW reqBadDeadline).pushRecords = [pr] ∧
      pr.resp.status = 500 ∧ pr.resp.body = "invalid duration " :=
  claim_c2 envW reqBadDeadline "invalid duration " rfl

/-- **C9.** With local-scrape mode enabled, a polled request whose URL host
contains no colon and which reaches the host rewrite (deadline parsed,
hostname equal to the identity) makes the rewrite index the second element of
a one-element split — out of bounds, a runtime panic — so no scrape is
executed and no outcome is pushed. -/
theorem claim_c9 (env : Env) (req : Request) (t : Int)
    (h1 : getHeaderTimeout req.header = .ok t)
    (h2 : hostname req.url.host = env.myFqdn)
    (h3 : env.localScrape ≠ "")
    (h4 : req.url.host.data.contains ':' = false) :
    (doScrape env req).panicked = true ∧
    (doScrape env req).targetRequests = [] ∧
    (doScrape env req).pushRecords = [] := by
  rw [doScrape_parseOk env req t h1]
  unfold doScrapeValidated
  simp only [schemeRewrite_host]
  rw [if_neg (fun hc => hc h2), if_neg h3, goSplit_no_colon _ h4]
  exact ⟨rfl, rfl, rfl⟩

theorem claim_c9_witness :
    (doScrape envLocalW reqNoPort).panicked = true ∧
    (doScrape envLocalW reqNoPort).targetRequests = [] ∧
    (doScrape envLocalW reqNoPort).pushRecords = [] :=
  claim_c9 envLocalW reqNoPort 5000000000 rfl rfl (by decide) (by decide)

/-- **C10.** For every synthesized failure pushed before a timeout context is
attached (in particular when the deadline header fails to parse), `doPush`
computes the remaining deadline against the missing context deadline's zero
time: the `X-Prometheus-Scrape-Timeout` header is set to the (negative)
seconds until the zero time instead of being omitted or zero. -/
theorem claim_c10 (env : Env) (req : Request) (e : String)
    (h1 : getHeaderTimeout req.header = .error e)
    (h2 : req.ctxDeadline = none)
    (h3 : 0 < env.now) :
    ∃ pr, (doScrape env req).pushRecords = [pr] ∧
      pr.remainingNanos = 0 - env.now ∧
      pr.remainingNanos < 0 ∧
      headerGet pr.resp.header "X-Prometheus-Scrape-Timeout"
        = fmtTimeoutSeconds (0 - env.now) := by
  rw [doScrape_parseError env req e h1]
  refine ⟨doPush env .proxy { status := 500, header := [], body := e } req, rfl, ?_, ?_, ?_⟩
  · show req.ctxDeadline.getD 0 - env.now = 0 - env.now
    rw [h2]
    rfl
  · show req.ctxDeadline.getD 0 - env.now < 0
    rw [h2]
    simp only [Option.getD_none]
    omega
  · show headerGet (headerSet _ "X-Prometheus-Scrape-Timeout"
      (fmtTimeoutSeconds (req.ctxDeadline.getD 0 - env.now))) "X-Prometheus-Scrape-Timeout"
      = fmtTimeoutSeconds (0 - env.now)
    rw [headerGet_set_self, h2]
    rfl

theorem claim_c10_witness :
    ∃ pr, (doScrape envW reqBadDeadline).pushRecords = [pr] ∧
      pr.remainingNanos = 0 - envW.now ∧
      pr.remainingNanos < 0 ∧
      headerGet pr.resp.header "X-Prometheus-Scrape-Timeout"
        = fmtTimeoutSeconds (0 - envW.now) :=
  claim_c10 envW reqBadDeadline "invalid duration " rfl rfl (by decide)

/-- **C3.** For every failing run of the backoff policy configured by
`newBackOffFromFlags` (initial wait at most the maximum wait): the first
interval is the initial wait; each next interval is the previous one grown by
the fixed 1.5 multiplier and clamped to the maximum wait; consecutive
intervals are non-decreasing and never exceed the maximum; the policy never
stops on elapsed time (retries may continue indefinitely); a reset — what an
intervening success causes — returns the policy to its initial-wait state. -/
theorem claim_c3 (i m : Nat) (h : i ≤ m) :
    intervalAt (newBackOffFromFlags i m) 0 = i
    ∧ (∀ n, intervalAt (newBackOffFromFlags i m) (n + 1)
        = min (3 * intervalAt (newBackOffFromFlags i m) n / 2) m)
    ∧ (∀ n, intervalAt (newBackOffFromFlags i m) n
        ≤ intervalAt (newBackOffFromFlags i m) (n + 1))
    ∧ (∀ n, intervalAt (newBackOffFromFlags i m) n ≤ m)
    ∧ (∀ n elapsed, backoffStops (backoffIter (newBackOffFromFlags i m) n) elapsed = false)
    ∧ (∀ n, backoffReset (backoffIter (newBackOffFromFlags i m) n)
        = newBackOffFromFlags i m) := by
  refine ⟨rfl, ?_, ?_, ?_, ?_, ?_⟩
  · intro n
    show min (3 * (backoffIter (newBackOffFromFlags i m) n).currentInterval / 2)
        (backoffIter (newBackOffFromFlags i m) n).maxInterval = _
    rw [(backoffIter_fields (newBackOffFromFlags i m) n).2.1]
    rfl
  · intro n
    show (backoffIter (newBackOffFromFlags i m) n).currentInterval
      ≤ min (3 * (backoffIter (newBackOffFromFlags i m) n).currentInterval / 2)
          (backoffIter (newBackOffFromFlags i m) n).maxInterval
    refine le_min (le_three_halves _) ?_
    rw [(backoffIter_fields (newBackOffFromFlags i m) n).2.1]
    exact backoffIter_current_le (newBackOffFromFlags i m) h n
  · exact backoffIter_current_le (newBackOffFromFlags i m) h
  · intro n elapsed
    have hz : (backoffIter (newBackOffFromFlags i m) n).maxElapsedTime = 0 :=
      (backoffIter_fields (newBackOffFromFlags i m) n).2.2
    simp [backoffStops, hz]
  · intro n
    exact backoffReset_eq _ _ (backoffIter_fields _ n).1 (backoffIter_fields _ n).2.1
      (backoffIter_fields _ n).2.2 rfl

theorem claim_c3_witness :
    intervalAt (newBackOffFromFlags 1000000000 5000000000) 0 = 1000000000 :=
  (claim_c3 1000000000 5000000000 (by decide)).1

/-- **C4.** For every invocation of the CONNECT tunnel dialer: a failed TCP
dial, an unreadable proxy response, or a status code other than 200 makes
the dial return an error and no connection is handed back; a 200 status hands
back the already-established socket with exactly the handshake response
consumed — the remaining stream untouched. -/
theorem claim_c4 (net : NetEnv) (connectAddress addr : String) :
    (∀ e, net.dial = .error e → dialOk (connectDialer net connectAddress addr) = false)
    ∧ (∀ cid e, net.dial = .ok cid → net.resp = .error e →
        dialOk (connectDialer net connectAddress addr) = false)
    ∧ (∀ cid status, net.dial = .ok cid → net.resp = .ok status → status ≠ 200 →
        dialOk (connectDialer net connectAddress addr) = false)
    ∧ (∀ cid, net.dial = .ok cid → net.resp = .ok 200 →
        connectDialer net connectAddress addr
          = .ok { id := cid, written := [connectRequest addr],
                  unread := net.input.drop net.respLen }) := by
  refine ⟨?_, ?_, ?_, ?_⟩ <;> intros <;> simp_all [connectDialer, dialOk]

theorem claim_c4_witness :
    dialOk (connectDialer netDialFail "proxy:3128" "relay:8080") = false
    ∧ dialOk (connectDialer netBadStatus "proxy:3128" "relay:8080") = false
    ∧ connectDialer netOk "proxy:3128" "relay:8080"
        = .ok { id := 7, written := [connectRequest "relay:8080"],
                unread := netOk.input.drop netOk.respLen } :=
  ⟨(claim_c4 netDialFail "proxy:3128" "relay:8080").1 "connection refused" rfl,
   (claim_c4 netBadStatus "proxy:3128" "relay:8080").2.2.1 7 403 rfl rfl (by decide),
   (claim_c4 netOk "proxy:3128" "relay:8080").2.2.2 7 rfl rfl⟩

/-- **C5.** Every outcome pushed by `doPush` (successful response or
synthesized failure) carries the originating request's `id` header echoed
unchanged, a remaining-time-to-deadline header computed from the originating
request's context deadline, and is POSTed as the serialized response bytes to
the relay's push endpoint under the originating request's deadline context;
moreover every push a `doScrape` run issues echoes the polled request's id. -/
theorem claim_c5 (env : Env) (client : ClientKind) (resp : Response)
    (origReq : Request) (polled : Request) :
    headerGet (doPush env client resp origReq).resp.header "id"
      = headerGet origReq.header "id"
    ∧ (doPush env client resp origReq).remainingNanos
      = origReq.ctxDeadline.getD 0 - env.now
    ∧ headerGet (doPush env client resp origReq).resp.header "X-Prometheus-Scrape-Timeout"
      = fmtTimeoutSeconds ((doPush env client resp origReq).remainingNanos)
    ∧ (doPush env client resp origReq).post.method = "POST"
    ∧ (doPush env client resp origReq).post.body
      = writeResponse (doPush env client resp origReq).resp
    ∧ (doPush env client resp origReq).post.contentLength
      = (writeResponse (doPush env client resp origReq).resp).length
    ∧ (doPush env client resp origReq).post.ctxDeadline = origReq.ctxDeadline
    ∧ (doPush env client resp origReq).post.url = pushEndpoint env.proxyURL
    ∧ ((doScrape env polled).pushRecords.all
        (fun pr => headerGet pr.resp.header "id" == headerGet polled.header "id")) = true := by
  refine ⟨doPush_id env client resp origReq, rfl, ?_, rfl, rfl, rfl, rfl, rfl,
    doScrape_id_echo env polled⟩
  exact headerGet_set_self _ _ _

/-- **C7.** For every polled request whose URL query carries `_scheme=https`,
every request dispatched to the target has its scheme rewritten to `https`
and the `_scheme` parameter removed; for every polled request without a
`_scheme` parameter, every dispatched request keeps the original scheme. -/
theorem claim_c7 (env : Env) (req : Request) :
    (headerGet req.url.query "_scheme" = "https" →
      ((doScrape env req).targetRequests.all
        (fun d => d.url.scheme == "https" && (d.url.query.lookup "_scheme" == none))) = true)
    ∧ (req.url.query.lookup "_scheme" = none →
      ((doScrape env req).targetRequests.all
        (fun d => d.url.scheme == req.url.scheme)) = true) := by
  have hurls : (doScrape env req).targetRequests = []
      ∨ (∃ d, (doScrape env req).targetRequests = [d]
          ∧ d.url.scheme = (schemeRewrite req.url).scheme
          ∧ d.url.query = (schemeRewrite req.url).query) := by
    cases hget : getHeaderTimeout req.header with
    | error e =>
      left
      rw [doScrape_parseError env req e hget]
      rfl
    | ok t =>
      rw [doScrape_parseOk env req t hget]
      unfold doScrapeValidated
      simp only [schemeRewrite_host]
      split
      · left
        rfl
      · split
        · exact .inr ⟨_, runTarget_targetRequests _ _ _, rfl, rfl⟩
        · split
          · left
            rfl
          · exact .inr ⟨_, runTarget_targetRequests _ _ _, rfl, rfl⟩
  constructor
  · intro hq
    rcases hurls with hnil | ⟨d, hd, hs, hqq⟩
    · rw [hnil]
      rfl
    · rw [hd]
      have hrw : schemeRewrite req.url
          = { req.url with scheme := "https", query := queryDel req.url.query "_scheme" } := by
        unfold schemeRewrite
        rw [if_pos hq]
      simp [hs, hqq, hrw, lookup_queryDel_self]
  · intro hnone
    rcases hurls with hnil | ⟨d, hd, hs, hqq⟩
    · rw [hnil]
      rfl
    · rw [hd]
      have hget0 : headerGet req.url.query "_scheme" = "" := by
        simp [headerGet, hnone]
      have hrw : schemeRewrite req.url = req.url := by
        unfold schemeRewrite
        rw [if_neg]
        simp [hget0]
      simp [hs, hrw]

theorem claim_c7_witness :
    ((doScrape envW reqScheme).targetRequests.all
      (fun d => d.url.scheme == "https" && (d.url.query.lookup "_scheme" == none))) = true
    ∧ ((doScrape envW reqW).targetRequests.all
      (fun d => d.url.scheme == reqW.url.scheme)) = true :=
  ⟨(claim_c7 envW reqScheme).1 rfl, (claim_c7 envW reqW).2 rfl⟩

/-- **C8.** For every `doScrape` run, at most one push POST is issued
(at-most-once delivery, no retry), and the push-error counter is incremented
exactly once per failed push and not otherwise; and a poll success is handled
by the Coordinator loop independently of the spawned task's outcome — the
loop's processing of the remaining polls is unchanged regardless of scrape or
push failures. -/
theorem claim_c8 (env : Env) (req : Request) (polls : List PollResult) :
    (doScrape env req).pushRecords.length ≤ 1
    ∧ (doScrape env req).pushErrorInc
      = ((doScrape env req).pushRecords.filter (fun pr => !pr.ok)).length
    ∧ loopRun env (PollResult.success req :: polls)
      = { pollErrorInc := (loopRun env polls).pollErrorInc
          scrapeLogs := doScrape env req :: (loopRun env polls).scrapeLogs } := by
  refine ⟨?_, ?_, rfl⟩
  · rcases doScrape_shape env req with ⟨q, e, heq, -⟩ | ⟨d, oh, heq, -⟩ | heq
    · rw [heq]
      exact (handleErr_push_count env .proxy q e).2
    · rw [heq]
      exact (runTarget_push_count env d oh).2
    · rw [heq]
      simp [panicLog]
  · rcases doScrape_shape env req with ⟨q, e, heq, -⟩ | ⟨d, oh, heq, -⟩ | heq
    · rw [heq]
      exact (handleErr_push_count env .proxy q e).1
    · rw [heq]
      exact (runTarget_push_count env d oh).1
    · rw [heq]
      rfl

/-- **C6 counterexample.** A concrete local-scrape run whose target call
fails: the request was dispatched to `localhost:9100`, but afterwards the
descriptor (as pushed with the synthesized failure) still carries
`localhost:9100`, not the original `h1:9100` — the claim's unconditional
"original host is restored after the call" is false for this polled request. -/
theorem claim_c6_counterexample :
    (doScrape envLocalFail reqW).targetRequests.map (fun d => d.url.host)
      = ["localhost:9100"]
    ∧ (doScrape envLocalFail reqW).pushRecords.map (fun pr => pr.req.url.host)
      = ["localhost:9100"]
    ∧ reqW.url.host = "h1:9100"
    ∧ ("localhost:9100" : String) ≠ "h1:9100" :=
  ⟨rfl, rfl, rfl, by decide⟩

/-- **C6 (amended).** For every polled request executed with local-scrape
mode enabled, the scrape is dispatched with the URL host rewritten to
`localhost` with the original port preserved; the original host is restored
in the request descriptor after a *successful* call, while after a failed
call the descriptor still carries the rewritten `localhost` host. -/
theorem claim_c6 (env : Env) (req : Request) (t : Int) (port : String)
    (h1 : getHeaderTimeout req.header = .ok t)
    (h2 : hostname req.url.host = env.myFqdn)
    (h3 : env.localScrape ≠ "")
    (h4 : (goSplit req.url.host ':').get? 1 = some port) :
    ∃ d, (doScrape env req).targetRequests = [d]
      ∧ d.url.host = "localhost:" ++ port
      ∧ (∀ r, env.scrapeDo d = .ok r →
          ∃ pr, (doScrape env req).pushRecords = [pr]
            ∧ pr.req.url.host = req.url.host)
      ∧ (∀ e, env.scrapeDo d = .error e →
          ∃ pr, (doScrape env req).pushRecords = [pr]
            ∧ pr.req.url.host = "localhost:" ++ port) := by
  have hshape : ∃ d, doScrape env req = runTarget env d req.url.host
      ∧ d.url.host = "localhost:" ++ port := by
    rw [doScrape_parseOk env req t h1]
    unfold doScrapeValidated
    simp only [schemeRewrite_host]
    rw [if_neg (fun hc => hc h2), if_neg h3, h4]
    exact ⟨_, rfl, rfl⟩
  obtain ⟨d, heq, hhost⟩ := hshape
  refine ⟨d, ?_, hhost, ?_, ?_⟩
  · rw [heq]
    exact runTarget_targetRequests env d req.url.host
  · intro r hr
    rw [heq]
    obtain ⟨pr, hpr, hh⟩ := (runTarget_restore env d req.url.host h3).1 r hr
    exact ⟨pr, hpr, hh⟩
  · intro e he
    rw [heq]
    obtain ⟨pr, hpr, hh⟩ := (runTarget_restore env d req.url.host h3).2 e he
    exact ⟨pr, hpr, by rw [hh, hhost]⟩

theorem claim_c6_witness :
    ∃ d, (doScrape envLocalW reqW).targetRequests = [d]
      ∧ d.url.host = "localhost:9100"
      ∧ (∀ r, envLocalW.scrapeDo d = .ok r →
          ∃ pr, (doScrape envLocalW reqW).pushRecords = [pr]
            ∧ pr.req.url.host = reqW.url.host)
      ∧ (∀ e, envLocalW.scrapeDo d = .error e →
          ∃ pr, (doScrape envLocalW reqW).pushRecords = [pr]
            ∧ pr.req.url.host = "localhost:9100") :=
  claim_c6 envLocalW reqW 5000000000 "9100" rfl rfl (by decide) rfl

end PushProx
